import Mathlib

/-!
Verification of the PestAPI inference server (app.py) against its
specification.  The file shallowly embeds the request-processing pipeline
(`predict`, app.py lines 53-109), the static file handler (`serve_static`,
lines 111-113) and the background retention sweeper (`cleanup_worker`,
lines 116-138).  External collaborators (the YOLO model, PIL decoding and
drawing, the filesystem) are parameters of the embedding: the pipeline is
stated for every behaviour of those collaborators, and concrete
instantiations are used for counterexamples and witnesses.
-/

namespace PestAPI

/-- Raw byte strings (file uploads, encoded images) are modelled as lists of
naturals. -/
abbrev Bytes := List Nat

/-- A decoded in-memory image.  Only identity of content matters for the
claims, so an image is an abstract buffer; PIL draw operations are modelled
as content transformations supplied by the environment. -/
abbrev Image := List Nat

/-- One raw adapter output row: app.py line 77-79 reads each
`result.boxes.data` row as x1, y1, x2, y2, conf, cls.  Coordinates and
confidence are passed through unmodified, so they are modelled as rationals;
`cls` is the value after the `int` conversion on line 80/84. -/
structure RawBox where
  x1 : Rat
  y1 : Rat
  x2 : Rat
  y2 : Rat
  conf : Rat
  cls : Int
deriving DecidableEq

/-- One entry of the response's detection list (app.py lines 81-86). -/
structure Detection where
  bbox : List Rat
  confidence : Rat
  cls : Int
  label : String
deriving DecidableEq

/-- An HTTP response from `predict`: either a 200 with detections and the
image url, or an error with status code, the value of the error key of the
JSON body and the optional detail field (app.py lines 56, 63, 70, 103,
109). -/
inductive Response where
  | ok (detections : List Detection) (image_url : String)
  | err (status : Nat) (error : String) (detail : Option String)
deriving DecidableEq

/-- A multipart request: the form files by field name (request.files). -/
structure Request where
  files : List (String × Bytes)

/-- The artifact directory as seen by predict and serve_static: file name to
stored bytes. -/
abbrev Store := List (String × Bytes)

/-- Association lookup used for request.files and for the artifact
directory. -/
def findFile : List (String × Bytes) → String → Option Bytes
  | [], _ => none
  | (n, b) :: rest, f => if n = f then some b else findFile rest f

/-- Reading form field content: request.files membership test and read
(app.py lines 55, 58). -/
def formFile (req : Request) (field : String) : Option Bytes :=
  findFile req.files field

/-- External collaborators of one predict call.  `decode` is PIL open and
RGB conversion (line 60, none means the constructor raised); `infer` is the
model invocation (line 67, error carries str of the exception); `names` is
model.names (line 80); `draw` is the combined draw.rectangle and draw.text
effect for one box (lines 90-91, none means one of them raised);
`encodeJpeg` is the JPEG encoding performed by image.save (line 100);
`saveFails` tells whether image.save raised (line 101); `host` is the
request host used by url_for with the external flag (line 106). -/
structure Env where
  decode : Bytes → Option Image
  infer : Image → Except String (List RawBox)
  names : Int → String
  draw : Image → RawBox → String → Option Image
  encodeJpeg : Image → Bytes
  saveFails : Bool
  host : String

/-- Building one detection dict from a raw box (app.py lines 80-86). -/
def mkDet (names : Int → String) (b : RawBox) : Detection :=
  { bbox := [b.x1, b.y1, b.x2, b.y2]
    confidence := b.conf
    cls := b.cls
    label := names b.cls }

/-- The parse-and-draw loop, app.py lines 73-94.  The surrounding
try/except (lines 75, 92-94) encloses the WHOLE loop: a raise from a draw
call ends the loop, keeping the detections appended so far (the detection
of the failing box was appended on line 87 before the draw on line 90).
The image is threaded through because ImageDraw.Draw(image) mutates the
decoded image in place; the second component is the content of that single
image object after the loop. -/
def collectAndDraw (env : Env) : Image → List RawBox → List Detection × Image
  | img, [] => ([], img)
  | img, b :: bs =>
    match env.draw img b (env.names b.cls) with
    | none => ([mkDet env.names b], img)
    | some img2 =>
      (mkDet env.names b :: (collectAndDraw env img2 bs).1,
       (collectAndDraw env img2 bs).2)

/-- Whether every draw call of the loop succeeds (no exception on lines
90-91 for any box). -/
def drawsAllOk (env : Env) : Image → List RawBox → Bool
  | _, [] => true
  | img, b :: bs =>
    match env.draw img b (env.names b.cls) with
    | none => false
    | some img2 => drawsAllOk env img2 bs

/-- The predict handler, app.py lines 53-109.  `fresh` is the uuid4 value
drawn on line 97 for this call; the returned store is the artifact
directory after the call. -/
def predict (env : Env) (fresh : String) (req : Request) (store : Store) :
    Response × Store :=
  match formFile req "image" with
  | none => (.err 400 "No image provided to API" none, store)
  | some bytes =>
    match env.decode bytes with
    | none => (.err 400 "Invalid image" none, store)
    | some image =>
      match env.infer image with
      | .error e => (.err 500 "Model inference failed" (some e), store)
      | .ok results =>
        if env.saveFails then (.err 500 "Failed to save image" none, store)
        else
          ( .ok (collectAndDraw env image results).1
              (env.host ++ "/static/" ++ (fresh ++ ".jpg")),
            (fresh ++ ".jpg",
              env.encodeJpeg (collectAndDraw env image results).2) :: store)

/-- The static file handler, app.py lines 111-113: send_from_directory
reads the named file from the artifact directory. -/
def serve_static (store : Store) (filename : String) : Option Bytes :=
  findFile store filename

/-- One entry of the artifact directory as the sweeper sees it: its name,
whether os.path.isfile holds, and its modification time (seconds). -/
structure DirEntry where
  name : String
  isFile : Bool
  mtime : Int
deriving DecidableEq

/-- Filesystem behaviour during one sweep cycle: whether os.path.getmtime
raises for a name (line 127, for example because the file vanished), and
whether os.remove succeeds for a name (lines 129-133). -/
structure SweepEnv where
  mtimeFails : String → Bool
  removeOk : String → Bool

/-- The scan of one cleanup cycle, app.py lines 121-133.  Non-files are
skipped (line 125); a getmtime raise propagates to the outer except on
line 136, ending the scan with the remaining entries untouched (second
component true records that the cycle body raised); an os.remove raise is
caught by the inner except (line 132) and the scan continues. -/
def scanEntries (senv : SweepEnv) (now maxAge : Int) :
    List DirEntry → List DirEntry × Bool
  | [] => ([], false)
  | e :: rest =>
    if e.isFile = false then
      ((e :: (scanEntries senv now maxAge rest).1),
       (scanEntries senv now maxAge rest).2)
    else if senv.mtimeFails e.name then
      (e :: rest, true)
    else if now - e.mtime > maxAge then
      if senv.removeOk e.name then scanEntries senv now maxAge rest
      else
        ((e :: (scanEntries senv now maxAge rest).1),
         (scanEntries senv now maxAge rest).2)
    else
      ((e :: (scanEntries senv now maxAge rest).1),
       (scanEntries senv now maxAge rest).2)

/-- One full cycle of the cleanup worker: the try/except on lines 120-137
swallows any raise from the scan, so the cycle always yields the directory
state the scan reached. -/
def cleanupCycle (senv : SweepEnv) (now maxAge : Int)
    (entries : List DirEntry) : List DirEntry :=
  (scanEntries senv now maxAge entries).1

/-- The cleanup worker loop, app.py lines 119-138, run for a number of
cycles: each cycle observes its own filesystem behaviour and clock
(`envs`), then the loop sleeps and continues with the next cycle
unconditionally. -/
def cleanup_worker (maxAge : Int) (envs : Nat → SweepEnv × Int) :
    Nat → List DirEntry → List DirEntry
  | 0, entries => entries
  | n + 1, entries =>
    cleanup_worker maxAge envs n
      (cleanupCycle (envs n).1 (envs n).2 maxAge entries)

/-- Survival predicate of one directory entry under a scan with no getmtime
failures: kept when it is not a regular file, or its age is within the
maximum, or its removal failed. -/
def survives (senv : SweepEnv) (now maxAge : Int) (e : DirEntry) : Bool :=
  !e.isFile || decide (now - e.mtime ≤ maxAge) || !senv.removeOk e.name

/-- Observable content of out_path during image.save (app.py line 100).
PIL writes the encoded stream directly to the destination path: the call
opens the final path (creating the file empty) and appends the encoded
bytes sequentially; no temporary file plus rename is used.  `k` counts
completed steps: 0 is before the open (file absent), 1 is just after the
open (file empty), and bytes.length + 1 is after the last byte (write
complete). -/
def fileDuringSave (bytes : Bytes) (k : Nat) : Option Bytes :=
  if k = 0 then none else some (bytes.take (k - 1))

/-- Filenames issued by a sequence of predict calls whose uuid4 draws come
from the randomness oracle `uuids` (app.py line 97): call i uses
uuids i. -/
def issuedFilenames (uuids : Nat → String) (n : Nat) : List String :=
  (List.range n).map (fun i => uuids i ++ ".jpg")

/-- A raw adapter output used by concrete instantiations. -/
def okBox : RawBox := { x1 := 0, y1 := 0, x2 := 10, y2 := 10, conf := 1, cls := 0 }

/-- A second raw adapter output used by concrete instantiations. -/
def okBox2 : RawBox := { x1 := 5, y1 := 5, x2 := 20, y2 := 20, conf := 1, cls := 1 }

/-- A fully successful environment: decoding succeeds, the adapter returns
one box, drawing succeeds and visibly changes the image content (as PIL
painting the red rectangle and label does), saving succeeds. -/
def envOk : Env :=
  { decode := fun b => some b
    infer := fun _ => .ok [okBox]
    names := fun _ => "aphid"
    draw := fun img _ _ => some (img ++ [9])
    encodeJpeg := fun img => img
    saveFails := false
    host := "http://h" }

/-- An environment whose adapter returns two boxes and whose draw calls
always raise. -/
def envDrawFail : Env :=
  { envOk with
    infer := fun _ => .ok [okBox, okBox2]
    draw := fun _ _ _ => none }

/-- A request carrying an image field. -/
def reqOk : Request := ⟨[( "image", [1, 2])]⟩

/-- A request with no image field. -/
def reqNone : Request := ⟨[]⟩

/-- A sweep environment where every filesystem call succeeds. -/
def senvOk : SweepEnv := ⟨fun _ => false, fun _ => true⟩

/-- A sweep environment where removing bad.jpg fails and everything else
succeeds. -/
def senvBad : SweepEnv := ⟨fun _ => false, fun f => decide (f ≠ "bad.jpg")⟩

/-- An expired artifact file (age 100 at now = 100). -/
def entryOld : DirEntry := ⟨ "old.jpg", true, 0⟩

/-- A fresh artifact file (age 10 at now = 100). -/
def entryNew : DirEntry := ⟨ "new.jpg", true, 90⟩

/-- A subdirectory entry, arbitrarily old. -/
def entryDir : DirEntry := ⟨ "sub", false, 0⟩

/-- An expired artifact file whose removal fails under senvBad. -/
def entryBad : DirEntry := ⟨ "bad.jpg", true, 0⟩

/-- Shape of predict on the fully successful path: the response is the 200
with the detections of the loop and the external url, and the store gains
the encoded post-loop image under the fresh filename. -/
lemma predict_success (env : Env) (fresh : String) (req : Request)
    (store : Store) (b : Bytes) (img : Image) (boxes : List RawBox)
    (hb : formFile req "image" = some b) (hd : env.decode b = some img)
    (hi : env.infer img = .ok boxes) (hs : env.saveFails = false) :
    predict env fresh req store =
      ( .ok (collectAndDraw env img boxes).1
          (env.host ++ "/static/" ++ (fresh ++ ".jpg")),
        (fresh ++ ".jpg",
          env.encodeJpeg (collectAndDraw env img boxes).2) :: store) := by
  simp [predict, hb, hd, hi, hs]

/-- The detections produced by the loop form a take-of-the-adapter-output
list: some first k boxes mapped through mkDet, all of them when every draw
succeeds. -/
lemma collectAndDraw_take (env : Env) :
    ∀ (boxes : List RawBox) (img : Image),
      ∃ k, k ≤ boxes.length ∧
        (collectAndDraw env img boxes).1 = (boxes.take k).map (mkDet env.names) ∧
        (drawsAllOk env img boxes = true → k = boxes.length) := by
  intro boxes
  induction boxes with
  | nil =>
    intro img
    exact ⟨0, Nat.le_refl 0, by simp [collectAndDraw], fun _ => rfl⟩
  | cons b bs ih =>
    intro img
    cases h : env.draw img b (env.names b.cls) with
    | none =>
      refine ⟨1, by simp, ?_, ?_⟩
      · simp [collectAndDraw, h]
      · intro hall
        simp [drawsAllOk, h] at hall
    | some img2 =>
      obtain ⟨k, hk, heq, hall⟩ := ih img2
      refine ⟨k + 1, by simpa using Nat.succ_le_succ hk, ?_, ?_⟩
      · simp [collectAndDraw, h, heq]
      · intro h2
        have hk2 := hall (by simpa [drawsAllOk, h] using h2)
        simp [hk2]

/-- C1 counterexample: with an adapter returning two raw boxes and a draw
call that raises on the first box, predict still answers 200 but its
detection list has one entry, not one entry per raw adapter output — the
broad try/except around the loop aborts the collection of the remaining
detections. -/
theorem predict_draw_failure_truncates_cex :
    envDrawFail.infer [1, 2] = .ok [okBox, okBox2] ∧
    (predict envDrawFail "u" reqOk []).1 =
      .ok [mkDet envDrawFail.names okBox]
        (envDrawFail.host ++ "/static/" ++ ( "u" ++ ".jpg")) ∧
    [mkDet envDrawFail.names okBox].length ≠ [okBox, okBox2].length := by
  refine ⟨rfl, rfl, by decide⟩

/-- C1 (amended): for every valid image whose inference succeeds (and whose
save succeeds), the response is still a 200 — a draw failure never aborts
the response — and the detection list is the first k adapter outputs in the
model's output order, mapped to detections; k equals the raw output count
whenever every draw succeeds, but a draw failure stops the parse loop, so
the detections after the failing one are dropped rather than returned. -/
theorem predict_detections_take_of_adapter (env : Env) (fresh : String)
    (req : Request) (store : Store) (b : Bytes) (img : Image)
    (boxes : List RawBox)
    (hb : formFile req "image" = some b) (hd : env.decode b = some img)
    (hi : env.infer img = .ok boxes) (hs : env.saveFails = false) :
    ∃ dets url st', predict env fresh req store = (.ok dets url, st') ∧
      (∃ k, k ≤ boxes.length ∧ dets = (boxes.take k).map (mkDet env.names)) ∧
      (drawsAllOk env img boxes = true →
        dets = boxes.map (mkDet env.names)) := by
  obtain ⟨k, hk, heq, hall⟩ := collectAndDraw_take env boxes img
  refine ⟨(collectAndDraw env img boxes).1, _, _,
    predict_success env fresh req store b img boxes hb hd hi hs,
    ⟨k, hk, heq⟩, ?_⟩
  intro h2
  rw [heq, hall h2, List.take_length]

/-- C1 witness: a concrete successful request through envOk. -/
theorem predict_detections_take_of_adapter_witness :
    formFile reqOk "image" = some [1, 2] ∧
    envOk.decode [1, 2] = some [1, 2] ∧
    envOk.infer [1, 2] = .ok [okBox] ∧
    envOk.saveFails = false ∧
    (∃ dets url st', predict envOk "u" reqOk [] = (.ok dets url, st') ∧
      (∃ k, k ≤ [okBox].length ∧
        dets = ([okBox].take k).map (mkDet envOk.names)) ∧
      (drawsAllOk envOk [1, 2] [okBox] = true →
        dets = [okBox].map (mkDet envOk.names))) :=
  ⟨rfl, rfl, rfl, rfl,
    predict_detections_take_of_adapter envOk "u" reqOk [] [1, 2] [1, 2]
      [okBox] rfl rfl rfl rfl⟩

/-- C2: the error responses of predict are exactly the four of the spec: a
missing image field yields the 400 no-image body, an undecodable image the
400 invalid-image body, a model invocation failure the 500 inference body
with the string detail, a save failure the 500 save body; each body occurs
exactly under its condition and every error response is one of these four
shapes. -/
theorem predict_error_responses_characterization (env : Env) (fresh : String)
    (req : Request) (store : Store) :
    ((predict env fresh req store).1 = .err 400 "No image provided to API" none ↔
        formFile req "image" = none) ∧
    ((predict env fresh req store).1 = .err 400 "Invalid image" none ↔
        ∃ b, formFile req "image" = some b ∧ env.decode b = none) ∧
    (∀ d, (predict env fresh req store).1 =
          .err 500 "Model inference failed" (some d) ↔
        ∃ b img, formFile req "image" = some b ∧ env.decode b = some img ∧
          env.infer img = .error d) ∧
    ((predict env fresh req store).1 = .err 500 "Failed to save image" none ↔
        ∃ b img boxes, formFile req "image" = some b ∧
          env.decode b = some img ∧ env.infer img = .ok boxes ∧
          env.saveFails = true) ∧
    (∀ s msg d, (predict env fresh req store).1 = .err s msg d →
        (s = 400 ∧ msg = "No image provided to API" ∧ d = none) ∨
        (s = 400 ∧ msg = "Invalid image" ∧ d = none) ∨
        (s = 500 ∧ msg = "Model inference failed" ∧ ∃ e, d = some e) ∨
        (s = 500 ∧ msg = "Failed to save image" ∧ d = none)) := by
  cases hb : formFile req "image" with
  | none => simp [predict, hb]
  | some bytes =>
    cases hd : env.decode bytes with
    | none => simp [predict, hb, hd]
    | some img =>
      cases hi : env.infer img with
      | error e => simp [predict, hb, hd, hi]
      | ok boxes =>
        cases hs : env.saveFails <;> simp [predict, hb, hd, hi, hs]

/-- C3 counterexample: with a draw effect that changes the image content
(as PIL painting the red rectangle and label text does), the decoded image
object after the annotation loop no longer holds its original content —
app.py line 73 hands the decoded image itself, not a copy, to
ImageDraw.Draw, so the loop mutates it in place. -/
theorem annotate_mutates_decoded_image_cex :
    (collectAndDraw envOk [1, 2] [okBox]).2 ≠ ([1, 2] : Image) := by
  decide

/-- C3 (amended): the annotation step operates directly on the decoded
image, not on a copy: the single image object is threaded through every
draw call, and what predict persists is the encoding of that in-place
annotated image — the original decoded content is not preserved whenever a
draw call changes it. -/
theorem predict_persists_in_place_annotated (env : Env) (fresh : String)
    (req : Request) (store : Store) (b : Bytes) (img : Image)
    (boxes : List RawBox)
    (hb : formFile req "image" = some b) (hd : env.decode b = some img)
    (hi : env.infer img = .ok boxes) (hs : env.saveFails = false) :
    predict env fresh req store =
      ( .ok (collectAndDraw env img boxes).1
          (env.host ++ "/static/" ++ (fresh ++ ".jpg")),
        (fresh ++ ".jpg",
          env.encodeJpeg (collectAndDraw env img boxes).2) :: store) :=
  predict_success env fresh req store b img boxes hb hd hi hs

/-- C3 witness: a concrete successful request through envOk. -/
theorem predict_persists_in_place_annotated_witness :
    formFile reqOk "image" = some [1, 2] ∧
    envOk.decode [1, 2] = some [1, 2] ∧
    envOk.infer [1, 2] = .ok [okBox] ∧
    envOk.saveFails = false ∧
    predict envOk "u" reqOk [] =
      ( .ok (collectAndDraw envOk [1, 2] [okBox]).1
          (envOk.host ++ "/static/" ++ ( "u" ++ ".jpg")),
        [( "u" ++ ".jpg",
          envOk.encodeJpeg (collectAndDraw envOk [1, 2] [okBox]).2)]) :=
  ⟨rfl, rfl, rfl, rfl,
    predict_persists_in_place_annotated envOk "u" reqOk [] [1, 2] [1, 2]
      [okBox] rfl rfl rfl rfl⟩

/-- C7: every successful prediction's image_url is the external url of the
freshly stored filename, and serving that filename from the post-call
store returns exactly the bytes that were persisted for this call. -/
theorem predict_image_url_roundtrip (env : Env) (fresh : String)
    (req : Request) (store : Store) (dets : List Detection) (url : String)
    (st' : Store)
    (h : predict env fresh req store = (.ok dets url, st')) :
    ∃ fname bytes, url = env.host ++ "/static/" ++ fname ∧
      st' = (fname, bytes) :: store ∧
      serve_static st' fname = some bytes := by
  cases hb : formFile req "image" with
  | none => simp [predict, hb] at h
  | some b =>
    cases hd : env.decode b with
    | none => simp [predict, hb, hd] at h
    | some img =>
      cases hi : env.infer img with
      | error e => simp [predict, hb, hd, hi] at h
      | ok boxes =>
        cases hs : env.saveFails with
        | true => simp [predict, hb, hd, hi, hs] at h
        | false =>
          rw [predict_success env fresh req store b img boxes hb hd hi hs] at h
          have hfst := congrArg Prod.fst h
          have hsnd := congrArg Prod.snd h
          simp only [Prod.fst, Prod.snd] at hfst hsnd
          injection hfst with hdets hurl
          refine ⟨fresh ++ ".jpg",
            env.encodeJpeg (collectAndDraw env img boxes).2,
            hurl.symm, hsnd.symm, ?_⟩
          rw [← hsnd]
          simp [serve_static, findFile]

/-- C7 witness: a concrete successful request through envOk. -/
theorem predict_image_url_roundtrip_witness :
    predict envOk "u" reqOk [] =
      ( .ok [mkDet envOk.names okBox] ( "http://h" ++ "/static/" ++ ( "u" ++ ".jpg")),
        [( "u" ++ ".jpg", [1, 2, 9])]) ∧
    (∃ fname bytes,
      ( "http://h" ++ "/static/" ++ ( "u" ++ ".jpg")) =
        envOk.host ++ "/static/" ++ fname ∧
      ([( "u" ++ ".jpg", ([1, 2, 9] : Bytes))] : Store) = [(fname, bytes)] ∧
      serve_static [( "u" ++ ".jpg", [1, 2, 9])] fname = some bytes) := by
  refine ⟨rfl, ?_⟩
  have h := predict_image_url_roundtrip envOk "u" reqOk []
    [mkDet envOk.names okBox] ( "http://h" ++ "/static/" ++ ( "u" ++ ".jpg"))
    [( "u" ++ ".jpg", [1, 2, 9])] rfl
  obtain ⟨fname, bytes, h1, h2, h3⟩ := h
  exact ⟨fname, bytes, h1, h2, h3⟩

/-- C9: whenever predict answers one of the three pre-persist errors
(missing field, undecodable image, inference failure), the artifact
directory is left exactly as it was: no artifact file is created on those
paths. -/
theorem predict_pre_persist_store_unchanged (env : Env) (fresh : String)
    (req : Request) (store : Store)
    (h : (predict env fresh req store).1 =
          .err 400 "No image provided to API" none ∨
        (predict env fresh req store).1 = .err 400 "Invalid image" none ∨
        ∃ d, (predict env fresh req store).1 =
          .err 500 "Model inference failed" (some d)) :
    (predict env fresh req store).2 = store := by
  cases hb : formFile req "image" with
  | none => simp [predict, hb]
  | some b =>
    cases hd : env.decode b with
    | none => simp [predict, hb, hd]
    | some img =>
      cases hi : env.infer img with
      | error e => simp [predict, hb, hd, hi]
      | ok boxes =>
        cases hs : env.saveFails with
        | true => simp [predict, hb, hd, hi, hs]
        | false =>
          rw [predict_success env fresh req store b img boxes hb hd hi hs] at h
          simp at h

/-- C9 witness: a request with no image field leaves a concrete store
untouched. -/
theorem predict_pre_persist_store_unchanged_witness :
    ((predict envOk "u" reqNone [( "a.jpg", [0])]).1 =
        .err 400 "No image provided to API" none ∨
      (predict envOk "u" reqNone [( "a.jpg", [0])]).1 =
        .err 400 "Invalid image" none ∨
      ∃ d, (predict envOk "u" reqNone [( "a.jpg", [0])]).1 =
        .err 500 "Model inference failed" (some d)) ∧
    (predict envOk "u" reqNone [( "a.jpg", [0])]).2 = [( "a.jpg", [0])] :=
  ⟨Or.inl rfl,
    predict_pre_persist_store_unchanged envOk "u" reqNone [( "a.jpg", [0])]
      (Or.inl rfl)⟩

/-- With no getmtime failure the scan is exactly a filter by the survival
predicate, and the cycle body never raises. -/
lemma scanEntries_eq_filter (senv : SweepEnv) (now maxAge : Int)
    (hm : ∀ f, senv.mtimeFails f = false) :
    ∀ l : List DirEntry,
      scanEntries senv now maxAge l =
        (l.filter (survives senv now maxAge), false) := by
  intro l
  induction l with
  | nil => simp [scanEntries]
  | cons e rest ih =>
    by_cases h1 : e.isFile = false
    · simp [scanEntries, h1, ih, List.filter_cons, survives]
    · have h1' : e.isFile = true := by
        revert h1; cases e.isFile <;> simp
      by_cases h3 : now - e.mtime > maxAge
      · by_cases h4 : senv.removeOk e.name = true
        · have hsv : survives senv now maxAge e = false := by
            simp [survives, h1', h4]
            omega
          simp [scanEntries, h1, hm e.name, h3, h4, ih,
            List.filter_cons, hsv]
        · have h4' : senv.removeOk e.name = false := by
            revert h4; cases senv.removeOk e.name <;> simp
          have hsv : survives senv now maxAge e = true := by
            simp [survives, h4']
          simp [scanEntries, h1, hm e.name, h3, h4', ih,
            List.filter_cons, hsv]
      · have hsv : survives senv now maxAge e = true := by
          simp [survives]
          omega
        simp [scanEntries, h1, hm e.name, h3, ih, List.filter_cons, hsv]

/-- C5: after one sweep cycle in which every filesystem call succeeds, an
artifact file strictly older than the maximum age is absent, and an
artifact file of age less than or equal to the maximum age (the inclusive
boundary: line 128 removes only when age is strictly greater) is still
present. -/
theorem cleanupCycle_eviction_boundary (senv : SweepEnv) (now maxAge : Int)
    (entries : List DirEntry) (e : DirEntry)
    (hm : ∀ f, senv.mtimeFails f = false)
    (hr : ∀ f, senv.removeOk f = true)
    (he : e ∈ entries) (hf : e.isFile = true) :
    (now - e.mtime > maxAge → e ∉ cleanupCycle senv now maxAge entries) ∧
    (now - e.mtime ≤ maxAge → e ∈ cleanupCycle senv now maxAge entries) := by
  have hc : cleanupCycle senv now maxAge entries =
      entries.filter (survives senv now maxAge) := by
    simp [cleanupCycle, scanEntries_eq_filter senv now maxAge hm entries]
  constructor
  · intro hage hmem
    rw [hc] at hmem
    have h2 := (List.mem_filter.mp hmem).2
    simp [survives, hf, hr e.name] at h2
    omega
  · intro hage
    rw [hc]
    exact List.mem_filter.mpr ⟨he, by simp [survives, hage]⟩

/-- C5 witness: at now = 100 with maximum age 50, the fresh file new.jpg
(age 10) survives the cycle and the bound directions are discharged
concretely. -/
theorem cleanupCycle_eviction_boundary_witness :
    (∀ f, senvOk.mtimeFails f = false) ∧
    (∀ f, senvOk.removeOk f = true) ∧
    entryNew ∈ [entryOld, entryNew] ∧ entryNew.isFile = true ∧
    (((100 : Int) - entryNew.mtime > 50 →
        entryNew ∉ cleanupCycle senvOk 100 50 [entryOld, entryNew]) ∧
      ((100 : Int) - entryNew.mtime ≤ 50 →
        entryNew ∈ cleanupCycle senvOk 100 50 [entryOld, entryNew])) :=
  ⟨fun _ => rfl, fun _ => rfl, by decide, rfl,
    cleanupCycle_eviction_boundary senvOk 100 50 [entryOld, entryNew]
      entryNew (fun _ => rfl) (fun _ => rfl) (by decide) rfl⟩

/-- C6: the sweeper is resilient.  First, under any pattern of os.remove
failures (and no getmtime failure), membership of an entry after the cycle
depends only on that entry's own age, kind and removal outcome — a failed
delete of one artifact never aborts the scan of the others.  Second, for
every behaviour of the filesystem, including cycles whose scan raised and
was caught by the outer except, the worker loop always proceeds to the
next cycle. -/
theorem cleanup_worker_resilient :
    (∀ (senv : SweepEnv) (now maxAge : Int) (entries : List DirEntry)
        (e : DirEntry),
      (∀ f, senv.mtimeFails f = false) →
      (e ∈ cleanupCycle senv now maxAge entries ↔
        e ∈ entries ∧ (e.isFile = false ∨ now - e.mtime ≤ maxAge ∨
          senv.removeOk e.name = false))) ∧
    (∀ (maxAge : Int) (envs : Nat → SweepEnv × Int) (n : Nat)
        (entries : List DirEntry),
      cleanup_worker maxAge envs (n + 1) entries =
        cleanup_worker maxAge envs n
          (cleanupCycle (envs n).1 (envs n).2 maxAge entries)) := by
  constructor
  · intro senv now maxAge entries e hm
    rw [cleanupCycle, scanEntries_eq_filter senv now maxAge hm entries]
    simp only [List.mem_filter]
    refine and_congr_right fun _ => ?_
    cases hfile : e.isFile <;> cases hro : senv.removeOk e.name <;>
      simp [survives, hfile, hro]
  · intro maxAge envs n entries
    rfl

/-- C6 witness: with the delete of bad.jpg failing, the expired old.jpg is
still characterized by its own attributes, and the one-cycle worker step
unfolds. -/
theorem cleanup_worker_resilient_witness :
    (∀ f, senvBad.mtimeFails f = false) ∧
    (entryOld ∈ cleanupCycle senvBad 100 50 [entryBad, entryOld] ↔
      entryOld ∈ [entryBad, entryOld] ∧ (entryOld.isFile = false ∨
        (100 : Int) - entryOld.mtime ≤ 50 ∨
        senvBad.removeOk entryOld.name = false)) ∧
    (cleanup_worker 50 (fun _ => (senvBad, 100)) 1 [entryBad, entryOld] =
      cleanup_worker 50 (fun _ => (senvBad, 100)) 0
        (cleanupCycle senvBad 100 50 [entryBad, entryOld])) :=
  ⟨fun _ => rfl,
    cleanup_worker_resilient.1 senvBad 100 50 [entryBad, entryOld] entryOld
      (fun _ => rfl),
    cleanup_worker_resilient.2 50 (fun _ => (senvBad, 100)) 0
      [entryBad, entryOld]⟩

/-- Non-file entries are never touched by a scan, whatever the filesystem
does. -/
lemma mem_scan_of_non_file (senv : SweepEnv) (now maxAge : Int) (e : DirEntry)
    (hf : e.isFile = false) :
    ∀ l : List DirEntry, e ∈ l → e ∈ (scanEntries senv now maxAge l).1 := by
  intro l
  induction l with
  | nil => intro h; exact absurd h (List.not_mem_nil e)
  | cons a rest ih =>
    intro hmem
    simp only [scanEntries]
    split_ifs with h1 h2 h3 h4
    · rcases List.mem_cons.mp hmem with rfl | hm2
      · exact List.mem_cons_self _ _
      · exact List.mem_cons_of_mem a (ih hm2)
    · exact hmem
    · rcases List.mem_cons.mp hmem with rfl | hm2
      · exact absurd hf h1
      · exact ih hm2
    · rcases List.mem_cons.mp hmem with rfl | hm2
      · exact absurd hf h1
      · exact List.mem_cons_of_mem a (ih hm2)
    · rcases List.mem_cons.mp hmem with rfl | hm2
      · exact absurd hf h1
      · exact List.mem_cons_of_mem a (ih hm2)

/-- C10: a sweep cycle only ever removes regular files: any directory entry
that is not a regular file is skipped by the isfile guard on line 125 and
is still present after the cycle, regardless of its age and of any
filesystem failures. -/
theorem cleanupCycle_keeps_non_file_entries (senv : SweepEnv)
    (now maxAge : Int) (entries : List DirEntry) (e : DirEntry)
    (he : e ∈ entries) (hf : e.isFile = false) :
    e ∈ cleanupCycle senv now maxAge entries :=
  mem_scan_of_non_file senv now maxAge e hf entries he

/-- C10 witness: the ancient subdirectory entry survives a concrete
cycle. -/
theorem cleanupCycle_keeps_non_file_entries_witness :
    entryDir ∈ [entryOld, entryDir] ∧ entryDir.isFile = false ∧
    entryDir ∈ cleanupCycle senvOk 100 50 [entryOld, entryDir] :=
  ⟨by decide, rfl,
    cleanupCycle_keeps_non_file_entries senvOk 100 50 [entryOld, entryDir]
      entryDir (by decide) rfl⟩

/-- C4 counterexample: writing the two-byte artifact, a reader scheduled
after the first write step observes the file holding only the first byte —
a state that is neither absent nor the complete content.  The write is not
atomic from a reader's perspective: line 100 saves directly to the final
path, with no write-then-rename. -/
theorem save_partial_read_cex :
    fileDuringSave [7, 8] 2 = some [7] ∧
    fileDuringSave [7, 8] 2 ≠ none ∧
    fileDuringSave [7, 8] 2 ≠ some [7, 8] := by
  decide

/-- C4 (amended): because image.save writes directly to the destination
path, a reader concurrent with the write can observe the artifact absent,
empty, or holding a proper first part of the final bytes; once the write
completes, every observation is exactly the persisted bytes. -/
theorem save_observations_during_write (bytes : Bytes) (k : Nat)
    (hk : k ≤ bytes.length + 1) :
    fileDuringSave bytes (bytes.length + 1) = some bytes ∧
    ∀ obs, fileDuringSave bytes k = some obs → ∃ m, obs = bytes.take m := by
  constructor
  · simp [fileDuringSave]
  · intro obs hobs
    by_cases h0 : k = 0
    · simp [fileDuringSave, h0] at hobs
    · simp only [fileDuringSave, if_neg h0, Option.some.injEq] at hobs
      exact ⟨k - 1, hobs.symm⟩

/-- C4 witness: one step into writing two bytes, the observation is a take
of the final content, and the completed write reads back in full. -/
theorem save_observations_during_write_witness :
    (2 : Nat) ≤ [7, 8].length + 1 ∧
    (fileDuringSave [7, 8] ([7, 8].length + 1) = some [7, 8] ∧
      ∀ obs, fileDuringSave [7, 8] 2 = some obs → ∃ m, obs = [7, 8].take m) :=
  ⟨by decide, save_observations_during_write [7, 8] 2 (by decide)⟩

/-- C8 counterexample: the uuid4 draw on line 97 is sampled randomness with
no collision check against existing artifacts, so absolute uniqueness is
not guaranteed: a randomness source that repeats a value yields two calls
with the same filename. -/
theorem issuedFilenames_collision_cex :
    ¬ (issuedFilenames (fun _ => "a") 2).Pairwise (fun a b => a ≠ b) := by
  intro h
  have he : issuedFilenames (fun _ => "a") 2 =
      [ "a" ++ ".jpg", "a" ++ ".jpg"] := rfl
  rw [he] at h
  exact (List.pairwise_cons.mp h).1 _ (List.mem_cons_self _ _) rfl

/-- C8 (amended): the artifact filenames issued by a run of predict calls
are pairwise distinct exactly as far as the underlying uuid draws are:
whenever the drawn identifier strings are pairwise distinct — which is all
uuid4 provides, with negligible but nonzero collision probability — the
derived filenames collide nowhere. -/
theorem issuedFilenames_distinct_of_inj (uuids : Nat → String) (n : Nat)
    (hinj : ∀ i j, i < n → j < n → uuids i = uuids j → i = j) :
    (issuedFilenames uuids n).Pairwise (fun a b => a ≠ b) := by
  rw [issuedFilenames, List.pairwise_map]
  have hlt : (List.range n).Pairwise (· < ·) := List.pairwise_lt_range n
  refine hlt.imp_of_mem ?_
  intro i j hi hj hij heq
  have hi' := List.mem_range.mp hi
  have hj' := List.mem_range.mp hj
  have hdata := congrArg String.data heq
  rw [String.data_append, String.data_append] at hdata
  have hu : (uuids i).data = (uuids j).data :=
    List.append_inj_left' hdata rfl
  exact absurd (hinj i j hi' hj' (String.ext hu)) (Nat.ne_of_lt hij)

/-- C8 witness: two distinct draws yield two distinct filenames. -/
theorem issuedFilenames_distinct_of_inj_witness :
    (∀ i j, i < 2 → j < 2 →
      (fun m => if m = 0 then "a" else "b") i =
        (fun m => if m = 0 then "a" else "b") j → i = j) ∧
    (issuedFilenames (fun m => if m = 0 then "a" else "b") 2).Pairwise
      (fun a b => a ≠ b) := by
  have hinj : ∀ i j, i < 2 → j < 2 →
      (fun m => if m = 0 then "a" else "b") i =
        (fun m => if m = 0 then "a" else "b") j → i = j := by
    intro i j hi hj h
    interval_cases i <;> interval_cases j <;> simp_all
  exact ⟨hinj, issuedFilenames_distinct_of_inj _ 2 hinj⟩

end PestAPI
